import Mathlib

/-!
Verification development for the ZimManager archive pipeline
(`ZIM-Manager-GUI.py`).  The Python class `ZimManager` is shallowly
embedded: entries of an open archive are modelled as a `List Entry`,
strings as Lean `String` (operated on through their `data` character
lists, matching Python's per-character semantics), byte contents as
`List Nat`, and the filesystem touched by the archive builder as an
association list from path to byte content.  Python calls that can
raise are modelled with `Except`; external collaborators (the libzim
read/write capability, `os`/`shutil` filesystem primitives) are
modelled by explicit parameters or small state-passing functions.
-/

/-- Python `str.startswith`: character-list prefix test. -/
def strStartsWith (s pre : String) : Bool :=
  pre.data.isPrefixOf s.data

/-- Python `str.endswith`: character-list suffix test. -/
def strEndsWith (s suf : String) : Bool :=
  suf.data.isSuffixOf s.data

/-- Python `str.upper` (ASCII case mapping suffices for the inputs here). -/
def pyUpper (s : String) : String :=
  String.mk (s.data.map Char.toUpper)

/-- Whitespace stripped by Python `str.strip`. -/
def isSpaceChar (c : Char) : Bool :=
  c == ' ' || c == '\t' || c == '\n' || c == '\r' || c == '\x0b' || c == '\x0c'

/-- Python `str.strip`: drop leading and trailing whitespace. -/
def pyStrip (s : String) : String :=
  String.mk (((s.data.dropWhile isSpaceChar).reverse.dropWhile isSpaceChar).reverse)

/-- Python `pat in s`: substring occurrence test on character lists. -/
def occursSub (pat : List Char) : List Char → Bool
  | [] => pat.isPrefixOf ([] : List Char)
  | c :: t => pat.isPrefixOf (c :: t) || occursSub pat t

/-- Python `s.split(sep)[-1]` for a one-character separator:
the characters after the last occurrence of the separator. -/
def afterLastChar (sep : Char) (l : List Char) : List Char :=
  (l.reverse.takeWhile (fun c => c != sep)).reverse

/-- Characters before the first occurrence of `pat`, when `pat` occurs.
Used to model the lazy group of the `<body>`-regex. -/
def splitAtSub (pat : List Char) : List Char → Option (List Char)
  | [] => if pat.isPrefixOf ([] : List Char) then some [] else none
  | c :: t =>
    if pat.isPrefixOf (c :: t) then some []
    else (splitAtSub pat t).map (fun g => c :: g)

/-- The literal `</body>` as characters. -/
def closeBodyChars : List Char := "</body>".data

/-- The literal `<body` as characters. -/
def openBodyChars : List Char := "<body".data

/-- Continuation of Python's `re.search(r"<body.*?>(.*?)</body>", s, re.S)`
after the literal `<body` has been consumed: lazily scan (with backtracking)
for a `>` that is followed, somewhere later, by `</body>`, and return the
lazily-minimal group between that `>` and the first following `</body>`. -/
def bodyTail : List Char → Option (List Char)
  | [] => none
  | c :: t =>
    if c = '>' then
      match splitAtSub closeBodyChars t with
      | some g => some g
      | none => bodyTail t
    else bodyTail t

/-- Leftmost-match search for `<body.*?>(.*?)</body>` (DOTALL): try every
start position from the left; a position can match only if the literal
`<body` is a prefix there, after which `bodyTail` finishes the match. -/
def bodySearchList : List Char → Option (List Char)
  | [] => none
  | c :: t =>
    if openBodyChars.isPrefixOf (c :: t) then
      match bodyTail ((c :: t).drop 5) with
      | some g => some g
      | none => bodySearchList t
    else bodySearchList t

/-- `re.search(r"<body.*?>(.*?)</body>", s, re.S)` returning the group. -/
def bodySearch (s : String) : Option String :=
  (bodySearchList s.data).map String.mk

/-- After `<` and one non-`<` character of a candidate `<[^<]+?>` match:
look for the closing `>`; another `<` before it kills the match. -/
def tagRest : List Char → Option (List Char)
  | [] => none
  | c :: t =>
    if c = '>' then some t
    else if c = '<' then none
    else tagRest t

/-- After the `<` of a candidate `<[^<]+?>` match: at least one non-`<`
character must follow, then `tagRest` looks for the closing `>`.
Returns the characters after the match. -/
def tagMatch : List Char → Option (List Char)
  | [] => none
  | c :: t => if c = '<' then none else tagRest t

/-- Fuelled scanner for `re.sub('<[^<]+?>', '', s)`: leftmost
non-overlapping matches are removed, everything else is kept. -/
def stripTagsFuel : Nat → List Char → List Char
  | 0, l => l
  | _ + 1, [] => []
  | fuel + 1, c :: t =>
    if c = '<' then
      match tagMatch t with
      | some rem => stripTagsFuel fuel rem
      | none => c :: stripTagsFuel fuel t
    else c :: stripTagsFuel fuel t

/-- `re.sub('<[^<]+?>', '', s)` on character lists. -/
def stripTagsList (l : List Char) : List Char :=
  stripTagsFuel (l.length + 1) l

/-- `re.sub('<[^<]+?>', '', s)` on strings. -/
def stripTags (s : String) : String :=
  String.mk (stripTagsList s.data)

/-- UTF-8 continuation byte test. -/
def isCont (b : Nat) : Bool := 0x80 ≤ b && b < 0xC0

/-- Valid second byte of a three-byte UTF-8 sequence with lead `b`. -/
def cont3ok (b b2 : Nat) : Bool :=
  isCont b2 && (b != 0xE0 || 0xA0 ≤ b2) && (b != 0xED || b2 < 0xA0)

/-- Valid second byte of a four-byte UTF-8 sequence with lead `b`. -/
def cont4ok (b b2 : Nat) : Bool :=
  isCont b2 && (b != 0xF0 || 0x90 ≤ b2) && (b != 0xF4 || b2 < 0x90)

/-- Incremental UTF-8 decoding as CPython's codec performs it: each valid
sequence yields `some` decoded character, each maximal invalid subpart
yields one `none` unit.  The error handler then maps `none` units to
nothing (`errors='ignore'`) or to U+FFFD (`errors='replace'`). -/
def utf8Units : List Nat → List (Option Char)
  | [] => []
  | b :: rest =>
    if b < 0x80 then some (Char.ofNat b) :: utf8Units rest
    else if b < 0xC2 then none :: utf8Units rest
    else if b < 0xE0 then
      match rest with
      | [] => [none]
      | b2 :: r2 =>
        if isCont b2 then
          some (Char.ofNat ((b % 0x20) * 0x40 + b2 % 0x40)) :: utf8Units r2
        else none :: utf8Units (b2 :: r2)
    else if b < 0xF0 then
      match rest with
      | [] => [none]
      | [b2] => if cont3ok b b2 then [none] else none :: utf8Units [b2]
      | b2 :: b3 :: r3 =>
        if cont3ok b b2 && isCont b3 then
          some (Char.ofNat ((b % 0x10) * 0x1000 + (b2 % 0x40) * 0x40 + b3 % 0x40)) ::
            utf8Units r3
        else if cont3ok b b2 then none :: utf8Units (b3 :: r3)
        else none :: utf8Units (b2 :: b3 :: r3)
    else if b < 0xF5 then
      match rest with
      | [] => [none]
      | [b2] => if cont4ok b b2 then [none] else none :: utf8Units [b2]
      | [b2, b3] =>
        if cont4ok b b2 && isCont b3 then [none]
        else if cont4ok b b2 then none :: utf8Units [b3]
        else none :: utf8Units [b2, b3]
      | b2 :: b3 :: b4 :: r4 =>
        if cont4ok b b2 && isCont b3 && isCont b4 then
          some (Char.ofNat ((b % 8) * 0x40000 + (b2 % 0x40) * 0x1000 +
            (b3 % 0x40) * 0x40 + b4 % 0x40)) :: utf8Units r4
        else if cont4ok b b2 && isCont b3 then none :: utf8Units (b4 :: r4)
        else if cont4ok b b2 then none :: utf8Units (b3 :: b4 :: r4)
        else none :: utf8Units (b2 :: b3 :: b4 :: r4)
    else none :: utf8Units rest

/-- The U+FFFD replacement character. -/
def replacementChar : Char := Char.ofNat 0xFFFD

/-- `bytes.decode('utf-8', errors='ignore')`: invalid units are discarded.
This is the decoder the Python source actually calls. -/
def decode_ignore (bs : List Nat) : String :=
  String.mk ((utf8Units bs).filterMap id)

/-- Modelled from the spec: decoding "with invalid sequences replaced"
(`errors='replace'` semantics, one U+FFFD per invalid unit).  This is the
behaviour the specification describes; it is compared against
`decode_ignore`, the behaviour the source implements. -/
def decode_replace_spec (bs : List Nat) : String :=
  String.mk ((utf8Units bs).map (fun u => u.getD replacementChar))

/-- A read-side archive entry (`Entry`/`Item` of the read capability):
a path, a display title, and lazily-materialized content bytes. -/
structure Entry where
  path : String
  title : String
  content : List Nat
deriving DecidableEq, Repr

/-- `ZimManager.namespace_descriptions`: the static namespace registry. -/
def namespace_descriptions : List (String × String) :=
  [("A", "Article"), ("B", "Deleted articles"), ("C", "Category entries"),
   ("I", "Images"), ("M", "Metadata"), ("S", "Stylesheets"),
   ("F", "Other files"), ("V", "Videos"), ("X", "Special entries")]

/-- `ZimManager.get_namespace_description`. -/
def get_namespace_description (ns : String) : String :=
  match namespace_descriptions.find? (fun kv => kv.1 == ns) with
  | some kv => kv.2
  | none => "Unknown (" ++ ns ++ ")"

/-- First path character as a one-character string (`entry.path[0]`). -/
def entryNsOf (path : String) : String :=
  match path.data with
  | [] => ""
  | c :: _ => String.singleton c

/-- `ZimManager.view_all_namespaces`: discovered unknown namespace codes,
as key/label pairs (dict semantics: only lookup matters, first hit wins). -/
def view_all_namespaces (arch : List Entry) : List (String × String) :=
  arch.filterMap (fun e =>
    match e.path.data with
    | [] => none
    | c :: _ =>
      if (namespace_descriptions.find? (fun kv => kv.1 == String.singleton c)).isSome then
        none
      else some (String.singleton c, "Unknown_" ++ String.singleton c))

/-- `ZimManager.get_namespaces`: static registry merged with discovered
codes plus the two pseudo-selectors. -/
def get_namespaces (arch : List Entry) : List (String × String) :=
  namespace_descriptions ++ view_all_namespaces arch ++
    [("ALL", "Select all namespaces"), ("UNKNOWN", "Select all unknown namespaces")]

/-- `ZimManager.set_namespace`: uppercase and strip the input, then match
`ALL` / `UNKNOWN` / any key of the effective namespace mapping; unmatched
input raises `ValueError("Invalid namespace selected.")`. -/
def set_namespace (arch : List Entry) (selected_ns : String) : Except String (Option String) :=
  let selected_ns_upper := pyStrip (pyUpper selected_ns)
  if selected_ns_upper = "ALL" then Except.ok none
  else if selected_ns_upper = "UNKNOWN" then Except.ok (some "UNKNOWN")
  else
    match (get_namespaces arch).find? (fun kv => kv.1 == selected_ns_upper) with
    | some kv => Except.ok (some kv.2)
    | none => Except.error "Invalid namespace selected."

/-- Modelled from the spec: the archive read capability's
`entry_by_path(path) -> Entry | NotFound` (§4.3, §6); `NotFound` is the
recoverable no-result outcome, modelled as `none`.  Archive paths are
unique within a snapshot (§3), so first-match lookup is exact. -/
def get_entry_by_path (arch : List Entry) (p : String) : Option Entry :=
  arch.find? (fun e => e.path == p)

/-- Python dynamic-typing errors that the embedded operations can raise. -/
inductive PyErr where
  | typeError
deriving DecidableEq, Repr

/-- One loop iteration of `ZimManager.extract_all_text`: propagate an
earlier exception, raise `TypeError` when the namespace is Python `None`
(`path.startswith(None)`), otherwise append the cleaned `<body>` text of
a matching entry — entries without a `<body>` match write nothing. -/
def textStep (nsSel : Option String) (acc : Except PyErr String) (e : Entry) :
    Except PyErr String :=
  match acc with
  | Except.error er => Except.error er
  | Except.ok out =>
    match nsSel with
    | none => Except.error PyErr.typeError
    | some nsStr =>
      if strStartsWith e.path nsStr then
        let article := decode_ignore e.content
        match bodySearch article with
        | some body => Except.ok (out ++ stripTags body ++ "\n\n")
        | none => Except.ok out
      else Except.ok out

/-- `ZimManager.extract_all_text`, returning the text written to the
output file.  The namespace argument is `Option String` because callers
may pass Python `None`. -/
def extract_all_text (arch : List Entry) (nsSel : Option String) : Except PyErr String :=
  arch.foldl (textStep nsSel) (Except.ok "")

/-- One loop iteration of `ZimManager.extract_titles`. -/
def titleStep (nsSel : Option String) (acc : Except PyErr (List (String × String)))
    (e : Entry) : Except PyErr (List (String × String)) :=
  match acc with
  | Except.error er => Except.error er
  | Except.ok results =>
    match nsSel with
    | none => Except.error PyErr.typeError
    | some nsStr =>
      if strStartsWith e.path nsStr then Except.ok (results ++ [(e.path, e.title)])
      else Except.ok results

/-- `ZimManager.extract_titles`: `(path, title)` pairs of entries whose
path starts with the namespace; Python `None` raises `TypeError`. -/
def extract_titles (arch : List Entry) (nsSel : Option String) :
    Except PyErr (List (String × String)) :=
  arch.foldl (titleStep nsSel) (Except.ok [])

/-- One loop iteration of `ZimManager.list_all_paths`. -/
def pathStep (nsSel : Option String) (acc : List String) (e : Entry) : List String :=
  match nsSel with
  | none => acc ++ [e.path]
  | some nsStr => if strStartsWith e.path nsStr then acc ++ [e.path] else acc

/-- `ZimManager.list_all_paths`: explicitly accepts `None` (no filter). -/
def list_all_paths (arch : List Entry) (nsSel : Option String) : List String :=
  arch.foldl (pathStep nsSel) []

/-- The text `ZimManager.save_selected_articles` writes for one requested
URL: nothing when the path is not in the archive; otherwise a titled
block using the `<body>` group when found, else the whole document,
tags stripped either way. -/
def save_article_chunk (arch : List Entry) (url : String) : String :=
  match get_entry_by_path arch url with
  | none => ""
  | some e =>
    let article := decode_ignore e.content
    match bodySearch article with
    | some body => "Title: " ++ e.title ++ "\n\n" ++ stripTags body ++ "\n\n"
    | none => "Title: " ++ e.title ++ "\n\n" ++ stripTags article ++ "\n\n"

/-- `ZimManager.save_selected_articles`, returning the text written to
the output file. -/
def save_selected_articles (arch : List Entry) (selected_urls : List String) : String :=
  selected_urls.foldl (fun out u => out ++ save_article_chunk arch u) ""

/-- One character of `ZimManager._sanitize_filename`'s
`re.sub(r'[<>:"/\\|?*]', '_', ...)`. -/
def sanChar (c : Char) : Char :=
  if c = '<' || c = '>' || c = ':' || c = '"' || c = '/' || c = '\\' ||
     c = '|' || c = '?' || c = '*' then '_' else c

/-- `ZimManager._sanitize_filename`. -/
def _sanitize_filename (filename : String) : String :=
  String.mk (filename.data.map sanChar)

/-- `ZimManager._determine_mimetype`: the read-side resolver, rules
evaluated top to bottom. -/
def _determine_mimetype (path : String) : String :=
  if strStartsWith path "A/" then "text/html"
  else if strEndsWith path ".html" || strEndsWith path ".htm" then "text/html"
  else if strEndsWith path ".png" then "image/png"
  else if strEndsWith path ".jpg" || strEndsWith path ".jpeg" then "image/jpeg"
  else if strEndsWith path ".css" then "text/css"
  else if strEndsWith path ".js" then "application/javascript"
  else if strEndsWith path ".pdf" then "application/pdf"
  else if strEndsWith path ".zip" then "application/zip"
  else if strEndsWith path ".mp4" then "video/mp4"
  else if strEndsWith path ".webm" then "video/webm"
  else if strEndsWith path ".ogg" then "video/ogg"
  else "application/octet-stream"

/-- `ZimManager.MyItem.get_mimetype`: the write-side resolver. -/
def myItem_get_mimetype (path : String) : String :=
  if strEndsWith path ".html" || strEndsWith path ".htm" then "text/html"
  else if strEndsWith path ".png" then "image/png"
  else if strEndsWith path ".jpg" || strEndsWith path ".jpeg" then "image/jpeg"
  else if strEndsWith path ".css" then "text/css"
  else if strEndsWith path ".js" then "application/javascript"
  else "application/octet-stream"

/-- The namespace condition of `ZimManager.extract_by_mimetype`:
`(namespace is None or entry_namespace == namespace) or
 (namespace == "UNKNOWN" and description.startswith("Unknown"))`. -/
def nsMatches (nsSel : Option String) (entryNs : String) : Bool :=
  match nsSel with
  | none => true
  | some ns =>
    entryNs == ns ||
      (ns == "UNKNOWN" && strStartsWith (get_namespace_description entryNs) "Unknown")

/-- Content written to an extracted file: raw bytes in binary mode, or
decoded text in UTF-8 text mode. -/
inductive WriteData where
  | bin (bs : List Nat)
  | txt (s : String)
deriving DecidableEq, Repr

/-- One file written by `ZimManager.extract_by_mimetype`: its path
relative to the output directory, and its content. -/
structure FileWrite where
  relPath : String
  data : WriteData
deriving DecidableEq, Repr

/-- `any(media in mimetype for media in ['image','video','application/octet-stream'])`. -/
def isBinaryMime (mimetype : String) : Bool :=
  occursSub "image".data mimetype.data || occursSub "video".data mimetype.data ||
    occursSub "application/octet-stream".data mimetype.data

/-- The file `ZimManager.extract_by_mimetype` writes for one matching
entry: sanitized path plus the mimetype subtype as extension. -/
def writeOf (mimetype : String) (e : Entry) : FileWrite :=
  let item_mimetype := _determine_mimetype e.path
  let ext := String.mk (afterLastChar '/' item_mimetype.data)
  { relPath := _sanitize_filename e.path ++ "." ++ ext,
    data := if isBinaryMime mimetype then WriteData.bin e.content
            else WriteData.txt (decode_ignore e.content) }

/-- The full per-entry write condition of `ZimManager.extract_by_mimetype`. -/
def entryMatches (nsSel : Option String) (mimetype : String) (e : Entry) : Bool :=
  (e.path != "") && nsMatches nsSel (entryNsOf e.path) &&
    strStartsWith (_determine_mimetype e.path) mimetype

/-- One loop iteration of `ZimManager.extract_by_mimetype`: empty-path
entries are skipped with a warning, matching entries are written. -/
def extractStep (nsSel : Option String) (mimetype : String) (ws : List FileWrite)
    (e : Entry) : List FileWrite :=
  if e.path == "" then ws
  else if nsMatches nsSel (entryNsOf e.path) &&
      strStartsWith (_determine_mimetype e.path) mimetype then
    ws ++ [writeOf mimetype e]
  else ws

/-- `ZimManager.extract_by_mimetype` as the list of files written, in
entry order. -/
def extract_by_mimetype (arch : List Entry) (nsSel : Option String) (mimetype : String) :
    List FileWrite :=
  arch.foldl (extractStep nsSel mimetype) []

/-- The filesystem region `ZimManager.create_zim_file` touches:
an association list from path to byte content (first match wins). -/
structure FS where
  files : List (String × List Nat)
deriving DecidableEq, Repr

/-- File content at a path, if the file exists. -/
def FS.read (fs : FS) (p : String) : Option (List Nat) :=
  (fs.files.find? (fun kv => kv.1 == p)).map (fun kv => kv.2)

/-- `os.path.exists`. -/
def FS.hasFile (fs : FS) (p : String) : Bool :=
  (fs.read p).isSome

/-- Create or overwrite a file. -/
def FS.write (fs : FS) (p : String) (v : List Nat) : FS :=
  ⟨(p, v) :: fs.files.filter (fun kv => kv.1 != p)⟩

/-- `os.remove`. -/
def FS.removeFile (fs : FS) (p : String) : FS :=
  ⟨fs.files.filter (fun kv => kv.1 != p)⟩

/-- A successful `os.rename` / `shutil.move` of `src` onto `dst`. -/
def moveFile (fs : FS) (src dst : String) : FS :=
  match fs.read src with
  | some v => (fs.removeFile src).write dst v
  | none => fs

/-- The `finally` clause of `ZimManager.create_zim_file`: remove the temp
file if it still exists. -/
def cleanupTmp (fs : FS) (tmp : String) : FS :=
  if fs.hasFile tmp then fs.removeFile tmp else fs

/-- The backup-rename step of `ZimManager.create_zim_file`'s swap phase:
if `output_file` exists, rename it to the backup path; a first
`PermissionError` (`permFail1`) is retried once after `time.sleep(2)`;
a second failure (`permFail2`) propagates (`none`).  The two flags are
the environment's choice of rename outcomes. -/
def swapRename (fs : FS) (output_file backup_file : String) (permFail1 permFail2 : Bool) :
    Option FS :=
  if fs.hasFile output_file then
    if permFail1 then
      if permFail2 then none
      else some (moveFile fs output_file backup_file)
    else some (moveFile fs output_file backup_file)
  else some fs

/-- `ZimManager.create_zim_file` as a filesystem transformer.  `staging`
is the outcome of the `Creator` block: `Except.ok bytes` stages the new
archive into the temp file; `Except.error leftover` models a raised
staging failure that may leave a partial temp file behind (`some bytes`)
or none at all.  Returns whether the call succeeded together with the
final filesystem. -/
def create_zim_file (fs : FS) (output_file : String)
    (staging : Except (Option (List Nat)) (List Nat))
    (permFail1 permFail2 : Bool) : Bool × FS :=
  let temp_output_file := output_file ++ ".tmp"
  let backup_file := output_file ++ ".backup"
  match staging with
  | Except.error leftover =>
    let fs1 := match leftover with
      | some bs => fs.write temp_output_file bs
      | none => fs
    (false, cleanupTmp fs1 temp_output_file)
  | Except.ok staged =>
    let fs1 := fs.write temp_output_file staged
    match swapRename fs1 output_file backup_file permFail1 permFail2 with
    | none => (false, cleanupTmp fs1 temp_output_file)
    | some fs2 =>
      let fs3 := moveFile fs2 temp_output_file output_file
      let fs4 := if fs3.hasFile backup_file then fs3.removeFile backup_file else fs3
      (true, cleanupTmp fs4 temp_output_file)

/-- Concrete archive for witnesses: the spec's extraction-filter scenario. -/
def archEx : List Entry :=
  [⟨"A/a.html", "a", "<html><body>Hi</body></html>".data.map Char.toNat⟩,
   ⟨"I/b.png", "b", [137, 80, 78, 71]⟩,
   ⟨"I/c.jpg", "c", [255, 216, 255]⟩]

/-- Concrete entry with no `<body>` tag, for the body-asymmetry witness. -/
def entNoBody : Entry :=
  ⟨"A/plain.html", "Plain", "<p>solo</p>".data.map Char.toNat⟩

/-- Concrete pre-state for the staging-failure counterexample: a stale
backup file already sits next to the output path. -/
def fsBackupPre : FS := ⟨[("o.backup", [1])]⟩

/-- Concrete pre-state with an existing output file, for build witnesses. -/
def fsOutPre : FS := ⟨[("o", [7, 7]), ("other", [9])]⟩

theorem str_ext {s t : String} (h : s.data = t.data) : s = t := by
  cases s; cases t; simp_all

theorem str_append_ne_left (s t : String) (h : t.length ≠ 0) : s ≠ s ++ t := by
  intro he
  have hl := congrArg String.length he
  rw [String.length_append] at hl
  omega

theorem str_append_ne_right (s t u : String) (h : t.length ≠ u.length) :
    s ++ t ≠ s ++ u := by
  intro he
  have hl := congrArg String.length he
  rw [String.length_append, String.length_append] at hl
  omega

theorem out_ne_tmp (out : String) : out ≠ out ++ ".tmp" :=
  str_append_ne_left out ".tmp" (by decide)

theorem out_ne_backup (out : String) : out ≠ out ++ ".backup" :=
  str_append_ne_left out ".backup" (by decide)

theorem tmp_ne_backup (out : String) : out ++ ".tmp" ≠ out ++ ".backup" :=
  str_append_ne_right out ".tmp" ".backup" (by decide)

theorem backup_ne_tmp (out : String) : out ++ ".backup" ≠ out ++ ".tmp" :=
  (tmp_ne_backup out).symm

/-- C2 counterexample: the claim asserts that the path's own `/`
separators are preserved by sanitization, but `_sanitize_filename`
replaces them with `_` like every other listed character, flattening
`ns/sub/dir/page.html` into a single path segment with no `/` left. -/
theorem C2_sanitize_counterexample :
    _sanitize_filename "ns/sub/dir/page.html" = "ns_sub_dir_page.html" ∧
    ("ns_sub_dir_page.html".data.contains '/') = false := by
  decide

/-- C2 (amended): `_sanitize_filename` maps every character through
`sanChar`, which sends each of `< > : " / \ | ? *` — including `/` — to
`_` and leaves every other character unchanged; so `a:b?c.html`
sanitizes to `a_b_c.html` and `ns/sub/dir/page.html` flattens to
`ns_sub_dir_page.html`, and the file `extract_by_mimetype` writes for a
nested path is a single flat name directly under the output directory. -/
theorem C2_sanitize_amended (s : String) (c : Char)
    (hc : c ∉ ['<', '>', ':', '"', '/', '\\', '|', '?', '*']) :
    (_sanitize_filename s).data = s.data.map sanChar ∧
    sanChar '<' = '_' ∧ sanChar '>' = '_' ∧ sanChar ':' = '_' ∧
    sanChar '"' = '_' ∧ sanChar '/' = '_' ∧ sanChar '\\' = '_' ∧
    sanChar '|' = '_' ∧ sanChar '?' = '_' ∧ sanChar '*' = '_' ∧
    sanChar c = c ∧
    _sanitize_filename "a:b?c.html" = "a_b_c.html" ∧
    _sanitize_filename "ns/sub/dir/page.html" = "ns_sub_dir_page.html" ∧
    (writeOf "text/html" ⟨"ns/sub/dir/page.html", "t", []⟩).relPath =
      "ns_sub_dir_page.html.html" := by
  refine ⟨rfl, rfl, rfl, rfl, rfl, rfl, rfl, rfl, rfl, rfl, ?_, by decide, by decide, by decide⟩
  simp only [List.mem_cons, List.not_mem_nil, or_false] at hc
  push_neg at hc
  obtain ⟨h1, h2, h3, h4, h5, h6, h7, h8, h9⟩ := hc
  simp [sanChar, h1, h2, h3, h4, h5, h6, h7, h8, h9]

/-- C2 witness: the amended theorem applied at a concrete string and a
concrete non-special character. -/
theorem C2_sanitize_amended_witness :
    (_sanitize_filename "x").data = "x".data.map sanChar ∧
    sanChar '<' = '_' ∧ sanChar '>' = '_' ∧ sanChar ':' = '_' ∧
    sanChar '"' = '_' ∧ sanChar '/' = '_' ∧ sanChar '\\' = '_' ∧
    sanChar '|' = '_' ∧ sanChar '?' = '_' ∧ sanChar '*' = '_' ∧
    sanChar 'x' = 'x' ∧
    _sanitize_filename "a:b?c.html" = "a_b_c.html" ∧
    _sanitize_filename "ns/sub/dir/page.html" = "ns_sub_dir_page.html" ∧
    (writeOf "text/html" ⟨"ns/sub/dir/page.html", "t", []⟩).relPath =
      "ns_sub_dir_page.html.html" :=
  C2_sanitize_amended "x" 'x' (by decide)

/-- C7: read-side mimetype resolution is first-match top-to-bottom — any
path starting with `A/` is `text/html` regardless of extension, any path
matching no rule falls back to `application/octet-stream` — while the
write-side resolver applies the same extension rules minus the
`A/`-prefix rule and minus the pdf/zip/mp4/webm/ogg rules, agreeing with
the read-side resolver on every path outside those rules; concretely
`A/x.png` resolves to `text/html` read-side but `image/png` write-side,
and `doc.pdf` resolves to `application/pdf` read-side but
`application/octet-stream` write-side. -/
theorem C7_mimetype_resolvers (p q s : String)
    (hA : strStartsWith p "A/" = true)
    (hq0 : strStartsWith q "A/" = false)
    (hq1 : strEndsWith q ".html" = false) (hq2 : strEndsWith q ".htm" = false)
    (hq3 : strEndsWith q ".png" = false) (hq4 : strEndsWith q ".jpg" = false)
    (hq5 : strEndsWith q ".jpeg" = false) (hq6 : strEndsWith q ".css" = false)
    (hq7 : strEndsWith q ".js" = false) (hq8 : strEndsWith q ".pdf" = false)
    (hq9 : strEndsWith q ".zip" = false) (hq10 : strEndsWith q ".mp4" = false)
    (hq11 : strEndsWith q ".webm" = false) (hq12 : strEndsWith q ".ogg" = false)
    (hs0 : strStartsWith s "A/" = false)
    (hs1 : strEndsWith s ".pdf" = false) (hs2 : strEndsWith s ".zip" = false)
    (hs3 : strEndsWith s ".mp4" = false) (hs4 : strEndsWith s ".webm" = false)
    (hs5 : strEndsWith s ".ogg" = false) :
    _determine_mimetype p = "text/html" ∧
    _determine_mimetype q = "application/octet-stream" ∧
    myItem_get_mimetype q = "application/octet-stream" ∧
    myItem_get_mimetype s = _determine_mimetype s ∧
    _determine_mimetype "A/x.png" = "text/html" ∧
    myItem_get_mimetype "A/x.png" = "image/png" ∧
    _determine_mimetype "doc.pdf" = "application/pdf" ∧
    myItem_get_mimetype "doc.pdf" = "application/octet-stream" := by
  refine ⟨?_, ?_, ?_, ?_, by decide, by decide, by decide, by decide⟩
  · simp [_determine_mimetype, hA]
  · simp [_determine_mimetype, hq0, hq1, hq2, hq3, hq4, hq5, hq6, hq7, hq8, hq9,
      hq10, hq11, hq12]
  · simp [myItem_get_mimetype, hq1, hq2, hq3, hq4, hq5, hq6, hq7]
  · simp [myItem_get_mimetype, _determine_mimetype, hs0, hs1, hs2, hs3, hs4, hs5]

/-- C7 witness: the resolver theorem applied at `A/anything.pdf` (the
`A/` override), `M/meta` (no rule matches), and `style.css` (shared
extension rules). -/
theorem C7_mimetype_resolvers_witness :
    _determine_mimetype "A/anything.pdf" = "text/html" ∧
    _determine_mimetype "M/meta" = "application/octet-stream" ∧
    myItem_get_mimetype "M/meta" = "application/octet-stream" ∧
    myItem_get_mimetype "style.css" = _determine_mimetype "style.css" ∧
    _determine_mimetype "A/x.png" = "text/html" ∧
    myItem_get_mimetype "A/x.png" = "image/png" ∧
    _determine_mimetype "doc.pdf" = "application/pdf" ∧
    myItem_get_mimetype "doc.pdf" = "application/octet-stream" :=
  C7_mimetype_resolvers "A/anything.pdf" "M/meta" "style.css"
    (by decide) (by decide) (by decide) (by decide) (by decide) (by decide)
    (by decide) (by decide) (by decide) (by decide) (by decide) (by decide)
    (by decide) (by decide) (by decide) (by decide) (by decide) (by decide)
    (by decide) (by decide)

/-- C4 counterexample: the claim asserts that a registered key yields
the exact-namespace selector for that code, but `set_namespace` returns
the key's mapped value — the human-readable description — so input
`" a "` yields `"Article"`, not the namespace code `"A"`. -/
theorem C4_set_namespace_counterexample :
    set_namespace [] " a " = Except.ok (some "Article") ∧
    (some "Article" : Option String) ≠ some "A" := by
  constructor
  · rfl
  · simp

/-- C4 (amended): `set_namespace` uppercases then strips its input;
`"ALL"` yields the no-filter selector `none`, `"UNKNOWN"` yields the
literal `"UNKNOWN"` selector, any other input whose normalized form is a
key of the effective namespace mapping yields that key's mapped
description string (for the registry key `"A"`, the description
`"Article"`, not the code), and every unmatched input fails with
`ValueError("Invalid namespace selected.")` rather than silently
falling back. -/
theorem C4_set_namespace_amended (arch : List Entry) (sAll sUnk sHit sMiss : String)
    (kv : String × String)
    (h1 : pyStrip (pyUpper sAll) = "ALL")
    (h2 : pyStrip (pyUpper sUnk) = "UNKNOWN")
    (h3 : pyStrip (pyUpper sHit) ≠ "ALL") (h4 : pyStrip (pyUpper sHit) ≠ "UNKNOWN")
    (h5 : (get_namespaces arch).find? (fun x => x.1 == pyStrip (pyUpper sHit)) = some kv)
    (h6 : pyStrip (pyUpper sMiss) ≠ "ALL") (h7 : pyStrip (pyUpper sMiss) ≠ "UNKNOWN")
    (h8 : (get_namespaces arch).find? (fun x => x.1 == pyStrip (pyUpper sMiss)) = none) :
    set_namespace arch sAll = Except.ok none ∧
    set_namespace arch sUnk = Except.ok (some "UNKNOWN") ∧
    set_namespace arch sHit = Except.ok (some kv.2) ∧
    set_namespace arch sMiss = Except.error "Invalid namespace selected." ∧
    set_namespace arch "a" = Except.ok (some "Article") := by
  refine ⟨?_, ?_, ?_, ?_, ?_⟩
  · simp [set_namespace, h1]
  · simp [set_namespace, h2]
  · simp [set_namespace, h3, h4, h5]
  · simp [set_namespace, h6, h7, h8]
  · have hup : pyStrip (pyUpper "a") = "A" := rfl
    simp [set_namespace, hup, get_namespaces, List.find?_append, namespace_descriptions]

/-- C4 witness: the amended theorem applied to the empty archive with
the concrete inputs `" all "`, `"unknown"`, `"i"` (a registered key,
yielding the description `"Images"`), and `"q"` (unmatched). -/
theorem C4_set_namespace_amended_witness :
    set_namespace [] " all " = Except.ok none ∧
    set_namespace [] "unknown" = Except.ok (some "UNKNOWN") ∧
    set_namespace [] "i" = Except.ok (some ("I", "Images").2) ∧
    set_namespace [] "q" = Except.error "Invalid namespace selected." ∧
    set_namespace [] "a" = Except.ok (some "Article") :=
  C4_set_namespace_amended [] " all " "unknown" "i" "q" ("I", "Images")
    (by decide) (by decide) (by decide) (by decide) (by decide)
    (by decide) (by decide) (by decide)

theorem filterMap_id_length_add_countP (l : List (Option Char)) :
    (l.filterMap id).length + l.countP (fun u => u.isNone) = l.length := by
  induction l with
  | nil => rfl
  | cons a t ih =>
    cases a with
    | none => simp only [List.filterMap_cons, List.countP_cons]; simp; omega
    | some c => simp only [List.filterMap_cons, List.countP_cons]; simp; omega

/-- C8 counterexample: the claim asserts invalid sequences are replaced,
but the source decodes with `errors='ignore'`: on the bytes
`[0xFF, 0x61]` the operations' decoder drops the invalid byte and
produces `"a"`, not the replacement-decoded `"�" ++ "a"`. -/
theorem C8_decode_counterexample :
    decode_ignore [255, 97] = "a" ∧
    decode_ignore [255, 97] ≠ decode_replace_spec [255, 97] := by
  decide

/-- C8 (amended): for content bytes that are not valid UTF-8, the
text-producing operations decode with invalid sequences discarded
(`errors='ignore'`), never raising: the decode differs from the
spec's replacement decoding, being exactly one character shorter per
invalid unit. -/
theorem C8_decode_amended (bs : List Nat) (h : none ∈ utf8Units bs) :
    decode_ignore bs ≠ decode_replace_spec bs ∧
    (decode_ignore bs).length + (utf8Units bs).countP (fun u => u.isNone) =
      (decode_replace_spec bs).length := by
  have hL : (decode_ignore bs).length = ((utf8Units bs).filterMap id).length := rfl
  have hR : (decode_replace_spec bs).length = (utf8Units bs).length := by
    simp [decode_replace_spec, String.length]
  have hc : 0 < (utf8Units bs).countP (fun u => u.isNone) :=
    List.countP_pos_iff.mpr ⟨none, h, rfl⟩
  have h3 := filterMap_id_length_add_countP (utf8Units bs)
  refine ⟨?_, ?_⟩
  · intro he
    have h2 := congrArg String.length he
    rw [hL, hR] at h2
    omega
  · rw [hL, hR]
    exact h3

/-- C8 witness: the amended theorem applied to the concrete invalid
byte sequence `[0xFF, 0x61]`. -/
theorem C8_decode_amended_witness :
    decode_ignore [255, 97] ≠ decode_replace_spec [255, 97] ∧
    (decode_ignore [255, 97]).length + (utf8Units [255, 97]).countP (fun u => u.isNone) =
      (decode_replace_spec [255, 97]).length :=
  C8_decode_amended [255, 97] (by decide)

theorem titlesFold_error (l : List Entry) (er : PyErr) (nsSel : Option String) :
    l.foldl (titleStep nsSel) (Except.error er) = Except.error er := by
  induction l with
  | nil => rfl
  | cons e t ih =>
    simp only [List.foldl_cons]
    rw [show titleStep nsSel (Except.error er) e = Except.error er from rfl]
    exact ih

theorem textFold_error (l : List Entry) (er : PyErr) (nsSel : Option String) :
    l.foldl (textStep nsSel) (Except.error er) = Except.error er := by
  induction l with
  | nil => rfl
  | cons e t ih =>
    simp only [List.foldl_cons]
    rw [show textStep nsSel (Except.error er) e = Except.error er from rfl]
    exact ih

theorem pathsFold_none (l : List Entry) (acc : List String) :
    l.foldl (pathStep none) acc = acc ++ l.map (fun e => e.path) := by
  induction l generalizing acc with
  | nil => simp
  | cons e t ih => simp [pathStep, ih]

/-- C10: with the no-filter selector `None` (Python `None`, the value
`set_namespace` produces for `"ALL"`), `extract_titles` and
`extract_all_text` evaluate `entry.path.startswith(None)` on the first
entry and fail with `TypeError` instead of matching all entries,
whereas `list_all_paths` explicitly accepts `None` and returns every
entry's path. -/
theorem C10_none_namespace (arch arch2 : List Entry) (h : arch ≠ []) :
    extract_titles arch none = Except.error PyErr.typeError ∧
    extract_all_text arch none = Except.error PyErr.typeError ∧
    list_all_paths arch2 none = arch2.map (fun e => e.path) := by
  obtain ⟨e, t, rfl⟩ := List.exists_cons_of_ne_nil h
  refine ⟨?_, ?_, ?_⟩
  · show (e :: t).foldl (titleStep none) (Except.ok []) = _
    simp only [List.foldl_cons]
    rw [show titleStep none (Except.ok []) e = Except.error PyErr.typeError from rfl]
    exact titlesFold_error t PyErr.typeError none
  · show (e :: t).foldl (textStep none) (Except.ok "") = _
    simp only [List.foldl_cons]
    rw [show textStep none (Except.ok "") e = Except.error PyErr.typeError from rfl]
    exact textFold_error t PyErr.typeError none
  · simpa using pathsFold_none arch2 []

/-- C10 witness: the theorem applied to the concrete three-entry
archive. -/
theorem C10_none_namespace_witness :
    extract_titles archEx none = Except.error PyErr.typeError ∧
    extract_all_text archEx none = Except.error PyErr.typeError ∧
    list_all_paths archEx none = archEx.map (fun e => e.path) :=
  C10_none_namespace archEx archEx (by decide)

theorem str_data_append (s t : String) : (s ++ t).data = s.data ++ t.data := rfl

theorem saveFold_acc (arch : List Entry) (urls : List String) (a : String) :
    urls.foldl (fun out u => out ++ save_article_chunk arch u) a =
      a ++ urls.foldl (fun out u => out ++ save_article_chunk arch u) "" := by
  induction urls generalizing a with
  | nil => simp
  | cons u t ih =>
    simp only [List.foldl_cons]
    rw [ih (a ++ save_article_chunk arch u), ih ("" ++ save_article_chunk arch u)]
    apply str_ext
    simp [str_data_append]

/-- C3: `save_selected_articles` processes the requested paths in input
order with duplicates preserved (the output for `u0 :: us` is `u0`'s
block followed by the output for `us`), and a path that is not in the
archive is silently skipped — it contributes nothing and processing of
the remaining paths continues unchanged, with no error raised. -/
theorem C3_selected_articles (arch : List Entry) (us1 us2 us : List String)
    (u u0 : String) (h : get_entry_by_path arch u = none) :
    save_selected_articles arch (us1 ++ u :: us2) =
      save_selected_articles arch (us1 ++ us2) ∧
    save_selected_articles arch (u0 :: us) =
      save_article_chunk arch u0 ++ save_selected_articles arch us ∧
    save_article_chunk arch u = "" := by
  have hc : save_article_chunk arch u = "" := by simp [save_article_chunk, h]
  refine ⟨?_, ?_, hc⟩
  · unfold save_selected_articles
    rw [List.foldl_append, List.foldl_append, List.foldl_cons, hc]
    congr 1
    apply str_ext
    simp [str_data_append]
  · unfold save_selected_articles
    rw [List.foldl_cons, saveFold_acc]
    apply str_ext
    simp [str_data_append]

/-- C3 witness: the theorem applied to the concrete archive with a
missing path spliced between two present ones, and a duplicated head. -/
theorem C3_selected_articles_witness :
    save_selected_articles archEx (["A/a.html"] ++ "missing" :: ["I/b.png"]) =
      save_selected_articles archEx (["A/a.html"] ++ ["I/b.png"]) ∧
    save_selected_articles archEx ("A/a.html" :: ["A/a.html"]) =
      save_article_chunk archEx "A/a.html" ++ save_selected_articles archEx ["A/a.html"] ∧
    save_article_chunk archEx "missing" = "" :=
  C3_selected_articles archEx ["A/a.html"] ["I/b.png"] ["A/a.html"]
    "missing" "A/a.html" (by decide)

theorem bodySearchList_none_of_no_open (l : List Char)
    (h : occursSub openBodyChars l = false) : bodySearchList l = none := by
  induction l with
  | nil => rfl
  | cons c t ih =>
    rw [occursSub] at h
    simp only [Bool.or_eq_false_iff] at h
    obtain ⟨h1, h2⟩ := h
    rw [bodySearchList, if_neg (by simp [h1])]
    exact ih h2

/-- C5: for an entry whose content contains no `<body>` tag,
`extract_all_text` omits the entry from its output entirely (removing
the entry from the archive leaves the output unchanged), while
`save_selected_articles` for the same path still writes a block whose
text is the whole document with all tag markup stripped. -/
theorem C5_body_asymmetry (us1 us2 arch : List Entry) (e : Entry) (nsStr p : String)
    (hb : occursSub openBodyChars (decode_ignore e.content).data = false)
    (hfind : get_entry_by_path arch p = some e) :
    extract_all_text (us1 ++ e :: us2) (some nsStr) =
      extract_all_text (us1 ++ us2) (some nsStr) ∧
    save_selected_articles arch [p] =
      "Title: " ++ e.title ++ "\n\n" ++ stripTags (decode_ignore e.content) ++ "\n\n" := by
  have hsearch : bodySearch (decode_ignore e.content) = none := by
    unfold bodySearch
    rw [bodySearchList_none_of_no_open _ hb]
    rfl
  have hstep : ∀ acc, textStep (some nsStr) acc e = acc := by
    intro acc
    cases acc with
    | error er => rfl
    | ok out => simp [textStep, hsearch]
  refine ⟨?_, ?_⟩
  · unfold extract_all_text
    rw [List.foldl_append, List.foldl_append, List.foldl_cons, hstep]
  · unfold save_selected_articles
    simp only [List.foldl_cons, List.foldl_nil]
    unfold save_article_chunk
    simp [hfind, hsearch]

/-- C5 witness: the theorem applied to the concrete body-less entry
`entNoBody`, both in an archive iteration and by direct path lookup. -/
theorem C5_body_asymmetry_witness :
    extract_all_text ([] ++ entNoBody :: []) (some "A") =
      extract_all_text ([] ++ []) (some "A") ∧
    save_selected_articles [entNoBody] ["A/plain.html"] =
      "Title: " ++ entNoBody.title ++ "\n\n" ++
        stripTags (decode_ignore entNoBody.content) ++ "\n\n" :=
  C5_body_asymmetry [] [] [entNoBody] entNoBody "A" "A/plain.html"
    (by decide) (by decide)

theorem registry_find_spec (k : String) (kv : String × String)
    (h : namespace_descriptions.find? (fun x => x.1 == k) = some kv) :
    strStartsWith kv.2 "Unknown" = false ∧ (k == "UNKNOWN") = false := by
  have hmem := List.mem_of_find?_eq_some h
  have hpred := List.find?_some h
  fin_cases hmem <;> (simp_all; subst hpred; exact ⟨by decide, by decide⟩)

theorem unknown_desc_starts (k : String)
    (h : namespace_descriptions.find? (fun x => x.1 == k) = none) :
    strStartsWith (get_namespace_description k) "Unknown" = true := by
  unfold get_namespace_description
  rw [h]
  unfold strStartsWith
  simp only [ List.isPrefixOf_iff_prefix]
  have h1 : "Unknown".data <+: "Unknown (".data := by decide
  have h2 : ("Unknown (".data : List Char) <+: "Unknown (".data ++ (k.data ++ ")".data) :=
    List.prefix_append _ _
  rw [str_data_append, str_data_append, List.append_assoc]
  exact h1.trans h2

theorem nsMatches_unknown (k : String) :
    nsMatches (some "UNKNOWN") k =
      !((namespace_descriptions.find? (fun x => x.1 == k)).isSome) := by
  unfold nsMatches
  cases hf : namespace_descriptions.find? (fun x => x.1 == k) with
  | some kv =>
    obtain ⟨hd, hk⟩ := registry_find_spec k kv hf
    simp [get_namespace_description, hf, hd, hk]
  | none =>
    have hu := unknown_desc_starts k hf
    unfold get_namespace_description at hu
    rw [hf] at hu
    simp [get_namespace_description, hf, hu]

theorem extractFold_acc (arch : List Entry) (nsSel : Option String) (mimetype : String)
    (acc : List FileWrite) :
    arch.foldl (extractStep nsSel mimetype) acc =
      acc ++ (arch.filter (fun e => entryMatches nsSel mimetype e)).map (writeOf mimetype) := by
  induction arch generalizing acc with
  | nil => simp
  | cons e t ih =>
    simp only [List.foldl_cons]
    rw [ih]
    by_cases hp : e.path = ""
    · have h2 : entryMatches nsSel mimetype e = false := by simp [entryMatches, hp]
      simp [extractStep, hp, List.filter_cons, h2]
    · by_cases hm : (nsMatches nsSel (entryNsOf e.path) &&
          strStartsWith (_determine_mimetype e.path) mimetype) = true
      · have h2 : entryMatches nsSel mimetype e = true := by
          simp [entryMatches, hp, hm]
          simp_all
        simp [extractStep, hp, hm, List.filter_cons, h2]
      · have h2 : entryMatches nsSel mimetype e = false := by
          simp [entryMatches, hp]
          simp_all
        simp [extractStep, hp, hm, List.filter_cons, h2]

/-- C6: `extract_by_mimetype` writes exactly the non-empty-path entries
matched by both the namespace selector and the mimetype-prefix test, in
entry order; the no-filter selector matches every entry, an exact code
selector matches entries whose first path character equals the code, the
unknown selector matches exactly the entries whose namespace code is not
in the static registry, and on the spec's three-entry archive the prefix
`"image/"` writes exactly the two image-derived files and nothing for
`A/a.html`. -/
theorem C6_extract_filter (arch : List Entry) (nsSel : Option String)
    (mimetype cde ens ens2 : String) (hcode : cde ≠ "UNKNOWN") :
    extract_by_mimetype arch nsSel mimetype =
      (arch.filter (fun e => entryMatches nsSel mimetype e)).map (writeOf mimetype) ∧
    nsMatches none ens = true ∧
    nsMatches (some cde) ens = (ens == cde) ∧
    nsMatches (some "UNKNOWN") ens2 =
      !((namespace_descriptions.find? (fun x => x.1 == ens2)).isSome) ∧
    (extract_by_mimetype archEx none "image/").map (fun w => w.relPath) =
      ["I_b.png.png", "I_c.jpg.jpeg"] := by
  refine ⟨?_, rfl, ?_, nsMatches_unknown ens2, by decide⟩
  · simpa using extractFold_acc arch nsSel mimetype []
  · simp [nsMatches, beq_eq_false_iff_ne.mpr hcode]

/-- C6 witness: the theorem applied to the spec's three-entry archive
with the no-filter selector and the `"image/"` prefix, plus the exact
code `"I"` and the unregistered code `"Z"`. -/
theorem C6_extract_filter_witness :
    extract_by_mimetype archEx none "image/" =
      (archEx.filter (fun e => entryMatches none "image/" e)).map (writeOf "image/") ∧
    nsMatches none "I" = true ∧
    nsMatches (some "I") "I" = ("I" == "I") ∧
    nsMatches (some "UNKNOWN") "Z" =
      !((namespace_descriptions.find? (fun x => x.1 == "Z")).isSome) ∧
    (extract_by_mimetype archEx none "image/").map (fun w => w.relPath) =
      ["I_b.png.png", "I_c.jpg.jpeg"] :=
  C6_extract_filter archEx none "image/" "I" "I" "Z" (by decide)

theorem find_filter_ne_key (l : List (String × List Nat)) (p q : String) (h : q ≠ p) :
    (l.filter (fun kv => kv.1 != p)).find? (fun kv => kv.1 == q) =
      l.find? (fun kv => kv.1 == q) := by
  induction l with
  | nil => rfl
  | cons kv t ih =>
    by_cases hp : kv.1 = p
    · have h1 : (kv.1 != p) = false := by simp [hp]
      have h2 : (kv.1 == q) = false := by
        simp only [beq_eq_false_iff_ne]
        rw [hp]
        exact fun hh => h hh.symm
      simp [List.filter_cons, h1, h2, ih, List.find?_cons_of_neg]
    · have h1 : (kv.1 != p) = true := by simp [hp]
      by_cases hq : kv.1 = q
      · have h2 : (kv.1 == q) = true := by simp [hq]
        simp [List.filter_cons, h1, h2, List.find?_cons_of_pos]
      · have h2 : (kv.1 == q) = false := by simp [hq]
        simp [List.filter_cons, h1, h2, ih, List.find?_cons_of_neg]

theorem find_filter_self_none (l : List (String × List Nat)) (p : String) :
    (l.filter (fun kv => kv.1 != p)).find? (fun kv => kv.1 == p) = none := by
  induction l with
  | nil => rfl
  | cons kv t ih =>
    by_cases hp : kv.1 = p
    · have h1 : (kv.1 != p) = false := by simp [hp]
      simp [List.filter_cons, h1, ih]
    · have h1 : (kv.1 != p) = true := by simp [hp]
      have h2 : (kv.1 == p) = false := by simp [hp]
      simp [List.filter_cons, h1, h2, ih, List.find?_cons_of_neg]

theorem FS.read_write_same (fs : FS) (p : String) (v : List Nat) :
    (fs.write p v).read p = some v := by
  simp [FS.read, FS.write, List.find?_cons_of_pos]

theorem FS.read_write_ne (fs : FS) (p q : String) (v : List Nat) (h : q ≠ p) :
    (fs.write p v).read q = fs.read q := by
  have h2 : (p == q) = false := by
    simp only [beq_eq_false_iff_ne]
    exact fun hh => h hh.symm
  simp [FS.read, FS.write, List.find?_cons_of_neg, h2, find_filter_ne_key _ _ _ h]

theorem FS.read_remove_self (fs : FS) (p : String) :
    (fs.removeFile p).read p = none := by
  simp [FS.read, FS.removeFile, find_filter_self_none]

theorem FS.read_remove_ne (fs : FS) (p q : String) (h : q ≠ p) :
    (fs.removeFile p).read q = fs.read q := by
  simp [FS.read, FS.removeFile, find_filter_ne_key _ _ _ h]

theorem cleanup_read_ne (fs : FS) (tmp q : String) (h : q ≠ tmp) :
    (cleanupTmp fs tmp).read q = fs.read q := by
  unfold cleanupTmp
  by_cases hh : fs.hasFile tmp = true
  · simp [hh, FS.read_remove_ne _ _ _ h]
  · simp [hh]

theorem cleanup_no_tmp (fs : FS) (tmp : String) :
    (cleanupTmp fs tmp).hasFile tmp = false := by
  unfold cleanupTmp FS.hasFile
  by_cases hh : (fs.read tmp).isSome = true
  · simp [hh, FS.read_remove_self]
  · simp [hh]

/-- C1 counterexample: the claim asserts that after a staging-failed
build no `.backup` file remains on disk, but a stale backup file that
already existed before the call is untouched by the failure path and is
still present afterwards. -/
theorem C1_staging_failure_counterexample :
    fsBackupPre.hasFile ("o" ++ ".backup") = true ∧
    (create_zim_file fsBackupPre "o" (Except.error none) false false).1 = false ∧
    (create_zim_file fsBackupPre "o" (Except.error none) false false).2.hasFile
      ("o" ++ ".backup") = true := by
  decide

/-- C1 (amended): whenever staging into `output_path + ".tmp"` fails,
the build call fails, the pre-existing file at `output_path` (if any) is
byte-identical before and after, no `.tmp` file remains (cleanup always
removes a still-existing temp file), and the `.backup` path is untouched
— the failed call never creates a backup, so a `.backup` file remains
afterwards only if one already existed before the call. -/
theorem C1_staging_failure_atomic (fs : FS) (out : String)
    (leftover : Option (List Nat)) (p1 p2 : Bool) :
    (create_zim_file fs out (Except.error leftover) p1 p2).1 = false ∧
    (create_zim_file fs out (Except.error leftover) p1 p2).2.read out = fs.read out ∧
    (create_zim_file fs out (Except.error leftover) p1 p2).2.hasFile (out ++ ".tmp") = false ∧
    (create_zim_file fs out (Except.error leftover) p1 p2).2.read (out ++ ".backup") =
      fs.read (out ++ ".backup") := by
  have hot := out_ne_tmp out
  have hbt := backup_ne_tmp out
  cases leftover with
  | none =>
    exact ⟨rfl, cleanup_read_ne fs _ out hot, cleanup_no_tmp fs _,
      cleanup_read_ne fs _ _ hbt⟩
  | some bs =>
    refine ⟨rfl, ?_, cleanup_no_tmp _ _, ?_⟩
    · exact (cleanup_read_ne _ _ out hot).trans (FS.read_write_ne fs _ out bs hot)
    · exact (cleanup_read_ne _ _ _ hbt).trans (FS.read_write_ne fs _ _ bs hbt)

/-- C9: during the swap phase, when a file already exists at
`output_path`, a rename to `output_path + ".backup"` that first fails
with a transient permission error is retried exactly once after the
short delay: if the retry succeeds the build completes (the staged
archive lands at `output_path`, and neither the backup nor the temp file
remains), and if the retry also fails the failure propagates to the
caller — the call reports failure, the pre-existing output is untouched,
and cleanup still removes the temp file. -/
theorem C9_backup_rename_retry (fs : FS) (out : String) (staged : List Nat)
    (h : fs.hasFile out = true) :
    ((create_zim_file fs out (Except.ok staged) true false).1 = true ∧
     (create_zim_file fs out (Except.ok staged) true false).2.read out = some staged ∧
     (create_zim_file fs out (Except.ok staged) true false).2.hasFile (out ++ ".backup") = false ∧
     (create_zim_file fs out (Except.ok staged) true false).2.hasFile (out ++ ".tmp") = false) ∧
    ((create_zim_file fs out (Except.ok staged) true true).1 = false ∧
     (create_zim_file fs out (Except.ok staged) true true).2.read out = fs.read out ∧
     (create_zim_file fs out (Except.ok staged) true true).2.hasFile (out ++ ".tmp") = false) := by
  have hot := out_ne_tmp out
  have hob := out_ne_backup out
  have htb := tmp_ne_backup out
  have hbt := backup_ne_tmp out
  obtain ⟨v0, hv0⟩ := Option.isSome_iff_exists.mp h
  have h1 : (fs.write (out ++ ".tmp") staged).hasFile out = true := by
    unfold FS.hasFile
    rw [FS.read_write_ne fs _ out staged hot, hv0]
    rfl
  have hr1 : (fs.write (out ++ ".tmp") staged).read out = some v0 := by
    rw [FS.read_write_ne fs _ out staged hot]
    exact hv0
  have hr2 : ((((fs.write (out ++ ".tmp") staged).removeFile out).write
      (out ++ ".backup") v0)).read (out ++ ".tmp") = some staged := by
    rw [FS.read_write_ne _ _ _ _ htb, FS.read_remove_ne _ _ _ (Ne.symm hot),
      FS.read_write_same]
  have hr3 : (((((fs.write (out ++ ".tmp") staged).removeFile out).write
      (out ++ ".backup") v0).removeFile (out ++ ".tmp")).write out staged).hasFile
      (out ++ ".backup") = true := by
    unfold FS.hasFile
    rw [FS.read_write_ne _ _ _ _ (Ne.symm hob), FS.read_remove_ne _ _ _ hbt,
      FS.read_write_same]
    rfl
  have hr4 : ((((((fs.write (out ++ ".tmp") staged).removeFile out).write
      (out ++ ".backup") v0).removeFile (out ++ ".tmp")).write out staged).removeFile
      (out ++ ".backup")).hasFile (out ++ ".tmp") = false := by
    unfold FS.hasFile
    rw [FS.read_remove_ne _ _ _ htb, FS.read_write_ne _ _ _ _ (Ne.symm hot),
      FS.read_remove_self]
    rfl
  have key1 : create_zim_file fs out (Except.ok staged) true false =
      (true, (((((fs.write (out ++ ".tmp") staged).removeFile out).write
        (out ++ ".backup") v0).removeFile (out ++ ".tmp")).write out staged).removeFile
        (out ++ ".backup")) := by
    simp only [create_zim_file, swapRename, h1, if_true, moveFile, hr1, hr2, hr3,
      cleanupTmp, hr4, if_false, Bool.false_eq_true, ite_false, ite_true]
  have key2 : create_zim_file fs out (Except.ok staged) true true =
      (false, cleanupTmp (fs.write (out ++ ".tmp") staged) (out ++ ".tmp")) := by
    simp only [create_zim_file, swapRename, h1, if_true, ite_true]
  refine ⟨⟨?_, ?_, ?_, ?_⟩, ?_, ?_, ?_⟩
  · rw [key1]
  · rw [key1]
    show ((((((fs.write (out ++ ".tmp") staged).removeFile out).write
      (out ++ ".backup") v0).removeFile (out ++ ".tmp")).write out staged).removeFile
      (out ++ ".backup")).read out = some staged
    rw [FS.read_remove_ne _ _ _ hob, FS.read_write_same]
  · rw [key1]
    show ((((((fs.write (out ++ ".tmp") staged).removeFile out).write
      (out ++ ".backup") v0).removeFile (out ++ ".tmp")).write out staged).removeFile
      (out ++ ".backup")).hasFile (out ++ ".backup") = false
    unfold FS.hasFile
    rw [FS.read_remove_self]
    rfl
  · rw [key1]
    exact hr4
  · rw [key2]
  · rw [key2]
    exact (cleanup_read_ne _ _ out hot).trans (FS.read_write_ne fs _ out staged hot)
  · rw [key2]
    exact cleanup_no_tmp _ _

/-- C9 witness: the retry theorem applied to a concrete filesystem whose
output file `"o"` already exists. -/
theorem C9_backup_rename_retry_witness :
    ((create_zim_file fsOutPre "o" (Except.ok [5]) true false).1 = true ∧
     (create_zim_file fsOutPre "o" (Except.ok [5]) true false).2.read "o" = some [5] ∧
     (create_zim_file fsOutPre "o" (Except.ok [5]) true false).2.hasFile ("o" ++ ".backup") = false ∧
     (create_zim_file fsOutPre "o" (Except.ok [5]) true false).2.hasFile ("o" ++ ".tmp") = false) ∧
    ((create_zim_file fsOutPre "o" (Except.ok [5]) true true).1 = false ∧
     (create_zim_file fsOutPre "o" (Except.ok [5]) true true).2.read "o" = fsOutPre.read "o" ∧
     (create_zim_file fsOutPre "o" (Except.ok [5]) true true).2.hasFile ("o" ++ ".tmp") = false) :=
  C9_backup_rename_retry fsOutPre "o" [5] (by decide)
